import Mathlib

/-!
Shallow embedding of the `sweep` recon pipeline (github.com/vulnverified/sweep)
and verification of the specification claims about it.

Concurrency in the Go source (worker pools pulling from a bounded channel) is
embedded sequentially: each stage processes its work items in input order, and
a `cancelled` flag models a context whose `Done` channel is already closed when
a worker checks it.  Network effects (DNS lookups, TCP dials, HTTP exchanges)
are passed in as explicit oracle functions, so every definition is executable.
-/

namespace Sweep

/-! ### String primitives (embedding of the Go `strings` operations used) -/

/-- Embedding of ASCII lower-casing of a single character
(the subset of Go `strings.ToLower` exercised by hostnames). -/
def charToLower (c : Char) : Char :=
  if c.toNat ≥ 65 ∧ c.toNat ≤ 90 then Char.ofNat (c.toNat + 32) else c

/-- Embedding of Go `strings.ToLower`. -/
def strToLower (s : String) : String :=
  ⟨s.data.map charToLower⟩

/-- Embedding of Go `strings.HasSuffix`. -/
def strEndsWith (s suffix : String) : Bool :=
  suffix.data.isSuffixOf s.data

/-- Helper for `strContains`: does `sub` occur as a contiguous run? -/
def containsAux (sub : List Char) : List Char → Bool
  | [] => sub.isEmpty
  | c :: rest => sub.isPrefixOf (c :: rest) || containsAux sub rest

/-- Embedding of Go `strings.Contains` (substring containment). -/
def strContains (s sub : String) : Bool :=
  containsAux sub.data s.data

/-- Embedding of Go `strings.TrimSuffix`. -/
def strTrimSuffix (s suffix : String) : String :=
  if strEndsWith s suffix then ⟨s.data.take (s.data.length - suffix.data.length)⟩ else s

/-- A string is in lower-cased form. -/
def IsLowered (s : String) : Prop := strToLower s = s

/-! ### Data model (`internal/engine/result.go`) -/

structure Subdomain where
  host : String
  sources : List String
deriving DecidableEq, Repr

structure DNSResult where
  host : String
  ips : List String
  cname : String   -- Go zero value "" models an absent CNAME
deriving DecidableEq, Repr

structure PortResult where
  host : String
  ip : String
  port : Nat
deriving DecidableEq, Repr

structure Technology where
  name : String
  category : String
deriving DecidableEq, Repr

structure HTTPService where
  url : String
  host : String
  ip : String
  port : Nat
  scheme : String
  statusCode : Nat
  title : String
  server : String
  contentLength : Int
  technologies : List Technology
deriving DecidableEq, Repr

structure DanglingCNAME where
  host : String
  cname : String
  status : String
deriving DecidableEq, Repr

structure ZoneTransfer where
  nameserver : String
  success : Bool
  records : Nat
deriving DecidableEq, Repr

structure Summary where
  subdomainsFound : Nat
  liveHosts : Nat
  openPortCount : Nat
  httpServiceCount : Nat
  techCount : Nat
  danglingCNAMEs : Nat
  zoneTransferCount : Nat
deriving DecidableEq, Repr

/-! ### Deduplication helpers (`deduplicateSources` / `deduplicateStrings`) -/

/-- The Go seen-map loop: keep the first occurrence of each string. -/
def dedupAux (seen : List String) : List String → List String
  | [] => []
  | s :: rest => if s ∈ seen then dedupAux seen rest else s :: dedupAux (s :: seen) rest

/-- Embedding of `deduplicateStrings` (dns.go). -/
def deduplicateStrings (ss : List String) : List String := dedupAux [] ss

/-- Embedding of `deduplicateSources` (enumerator); identical Go code. -/
def deduplicateSources (ss : List String) : List String := dedupAux [] ss

/-! ### Dangling CNAME classification (`internal/recon/dangling.go`) -/

/-- The fixed vulnerable-service suffix list `danglingPatterns`. -/
def danglingPatterns : List String :=
  [".s3.amazonaws.com",
   ".azurewebsites.net",
   ".github.io",
   ".herokuapp.com",
   ".cloudfront.net",
   ".elasticbeanstalk.com",
   ".trafficmanager.net",
   ".blob.core.windows.net",
   ".azureedge.net",
   ".pantheonsite.io",
   ".netlify.app",
   ".ghost.io",
   ".myshopify.com",
   ".surge.sh"]

/-- A DNS lookup error as observed by `classifyDNSError`: either a
`*net.DNSError` (with its `IsNotFound` flag) or some other error value. -/
inductive LookupErr where
  | dnsError (isNotFound : Bool) (msg : String)
  | otherErr (msg : String)
deriving DecidableEq, Repr

/-- Embedding of `classifyDNSError`; `none` models a nil error. -/
def classifyDNSError : Option LookupErr → String
  | none => ""
  | some (.dnsError notFound _) => if notFound then "NXDOMAIN" else "SERVFAIL"
  | some (.otherErr msg) =>
    let errStr := strToLower msg
    if strContains errStr "no such host" then "NXDOMAIN"
    else if strContains errStr "server misbehaving" then "SERVFAIL"
    else ""

/-- Embedding of `checkDangling`. -/
def checkDangling (host cname : String) (lookupErr : Option LookupErr) :
    Option DanglingCNAME :=
  let cnameLower := strToLower cname
  let matchesPattern := danglingPatterns.any (fun p => strEndsWith cnameLower p)
  if !matchesPattern then none
  else
    let status := classifyDNSError lookupErr
    if status = "" then none
    else some ⟨host, cname, status⟩

/-! ### DNS resolution (`internal/recon/dns.go`, function `DNSResolve`)

Each worker's per-host behaviour is captured by `resolveHost`; the concurrent
worker pool is sequentialized over the input host order.  The `cnameOracle`
and `hostOracle` parameters model `net.DefaultResolver.LookupCNAME` /
`LookupHost` for each host. -/

/-- The CNAME a `DNSResolve` worker records for a host: lower-cased,
dot-trimmed, and dropped when empty or self-referential. -/
def cnameOf (host : String) (cnameRes : Except LookupErr String) : String :=
  match cnameRes with
  | .ok c =>
    let c' := strTrimSuffix (strToLower c) "."
    if c' ≠ host ∧ c' ≠ "" then c' else ""
  | .error _ => ""

/-- One loop iteration of a `DNSResolve` worker for a single host. -/
def resolveHost (host : String) (cnameRes : Except LookupErr String)
    (hostRes : Except LookupErr (List String)) :
    Option DNSResult × Option DanglingCNAME :=
  match hostRes with
  | .error e =>
    if cnameOf host cnameRes ≠ "" then
      (none, checkDangling host (cnameOf host cnameRes) (some e))
    else (none, none)
  | .ok ips => (some ⟨host, deduplicateStrings ips, cnameOf host cnameRes⟩, none)

/-- The sequentialized worker loop of `DNSResolve`. -/
def dnsLoop (cnameOracle : String → Except LookupErr String)
    (hostOracle : String → Except LookupErr (List String)) :
    List String → List DNSResult × List DanglingCNAME
  | [] => ([], [])
  | host :: rest =>
    ((match (resolveHost host (cnameOracle host) (hostOracle host)).1 with
      | some rec => rec :: (dnsLoop cnameOracle hostOracle rest).1
      | none => (dnsLoop cnameOracle hostOracle rest).1),
     (match (resolveHost host (cnameOracle host) (hostOracle host)).2 with
      | some d => d :: (dnsLoop cnameOracle hostOracle rest).2
      | none => (dnsLoop cnameOracle hostOracle rest).2))

/-- Embedding of `DNSResolve`.  `cancelled` models a context that is already
done when a worker checks it; the Go function always returns a `nil` error,
modelled by the `Option String` component. -/
def DNSResolve (cancelled : Bool) (cnameOracle : String → Except LookupErr String)
    (hostOracle : String → Except LookupErr (List String)) (hosts : List String) :
    (List DNSResult × List DanglingCNAME) × Option String :=
  if cancelled then (([], []), none)
  else (dnsLoop cnameOracle hostOracle hosts, none)

/-! ### Port scanning (`internal/recon/portscan.go`) -/

/-- Embedding of `PortScan`.  `dialOk ip port` models whether a TCP connect to
`ip:port` succeeds within the timeout; the Go function always returns a `nil`
error. -/
def PortScan (cancelled : Bool) (dialOk : String → Nat → Bool)
    (dnsRecords : List DNSResult) (ports : List Nat) :
    List PortResult × Option String :=
  let targets := dnsRecords.foldr (fun r acc =>
    match r.ips with
    | [] => acc
    | ip :: _ => (ports.map (fun port => PortResult.mk r.host ip port)) ++ acc) []
  if cancelled then ([], none)
  else (targets.filter (fun t => dialOk t.ip t.port), none)

/-! ### HTTP probing (`internal/recon/httpprobe.go`) -/

/-- The data observed from one HTTP exchange (`client.Do` plus body read),
modelling `*http.Response`; `none` at the call site models a request error
(timeout, refused, too many redirects). -/
structure HTTPResponse where
  statusCode : Nat
  headers : List (String × String)   -- response headers, original casing
  body : String                      -- body already truncated to the 1MB cap
  cookies : List String              -- cookie names from Set-Cookie
  contentLength : Int
deriving DecidableEq, Repr

/-- The raw response bundle handed to fingerprinting (`probeData`). -/
structure ProbeData where
  headers : List (String × String)   -- lowercase header name → first value
  body : String
  cookies : List String
deriving DecidableEq, Repr

/-- `resp.Header.Get name`: first header whose canonical name matches,
modelled case-insensitively. -/
def getHeader (headers : List (String × String)) (name : String) : String :=
  match headers.find? (fun p => strToLower p.1 = strToLower name) with
  | some p => p.2
  | none => ""

/-- `tlsFirstPorts`: ports where HTTPS is tried before HTTP. -/
def tlsFirstPorts : List Nat := [443, 8443, 9443, 6443, 1443, 4443]

/-- The `HTTPService` record that `probeURL` builds from a response;
`titleOf` models the `titleRegex` extraction from the body. -/
def mkService (titleOf : String → String) (pr : PortResult) (scheme : String)
    (r : HTTPResponse) : HTTPService :=
  { url := scheme ++ "://" ++ pr.host ++ ":" ++ toString pr.port
    host := pr.host
    ip := pr.ip
    port := pr.port
    scheme := scheme
    statusCode := r.statusCode
    title := titleOf r.body
    server := getHeader r.headers "Server"
    contentLength := r.contentLength
    technologies := [] }

/-- The `probeData` bundle that `probeURL` builds from a response. -/
def mkProbeData (r : HTTPResponse) : ProbeData :=
  { headers := r.headers.map (fun p => (strToLower p.1, p.2))
    body := r.body
    cookies := r.cookies }

/-- Embedding of `probeURL`: `resp` is the outcome of the request for this
scheme (`none` = any request/transport failure). -/
def probeURL (titleOf : String → String) (pr : PortResult) (scheme : String)
    (resp : Option HTTPResponse) : Option (HTTPService × ProbeData) :=
  match resp with
  | none => none
  | some r => some (mkService titleOf pr scheme r, mkProbeData r)

/-- Embedding of `probePort`: scheme order depends on the port, and the first
scheme yielding any response wins. -/
def probePort (titleOf : String → String) (respond : String → Option HTTPResponse)
    (pr : PortResult) : Option (HTTPService × ProbeData) :=
  let schemes := if pr.port ∈ tlsFirstPorts then ["https", "http"] else ["http", "https"]
  schemes.findSome? (fun scheme => probeURL titleOf pr scheme (respond scheme))

/-- Embedding of `HTTPProbe`: services plus the probe-data map (keyed by URL);
the Go function always returns a `nil` error. -/
def HTTPProbe (cancelled : Bool) (titleOf : String → String)
    (respond : PortResult → String → Option HTTPResponse)
    (openPorts : List PortResult) :
    (List HTTPService × List (String × ProbeData)) × Option String :=
  if cancelled then (([], []), none)
  else
    let results := openPorts.filterMap (fun pr => probePort titleOf (respond pr) pr)
    ((results.map Prod.fst, results.map (fun sp => (sp.1.url, sp.2))), none)

/-! ### Technology fingerprinting (`internal/recon/fingerprint.go`)

A rule's compiled header regex is modelled by its match semantics
`regex : Option (String → Bool)`; `loadFingerprints` leaves it `none` exactly
when the declared pattern is empty or failed to compile. -/

structure HeaderMatch where
  name : String
  pattern : String
  regex : Option (String → Bool)

structure FingerprintRule where
  name : String
  category : String
  headers : List HeaderMatch
  body : List String
  cookies : List String

/-- One header condition of `matchesRule` (the body of the first loop). -/
def headerCondMatches (data : ProbeData) (hm : HeaderMatch) : Bool :=
  match data.headers.lookup (strToLower hm.name) with
  | none => false
  | some headerVal =>
    (match hm.regex with
     | some rx => rx headerVal
     | none => false)
    || (hm.pattern = "" && headerVal ≠ "")

/-- One body condition of `matchesRule` (the body of the second loop). -/
def bodyCondMatches (data : ProbeData) (substr : String) : Bool :=
  strContains (strToLower data.body) (strToLower substr)

/-- One cookie condition of `matchesRule` (the body of the third loop). -/
def cookieCondMatches (data : ProbeData) (cookieName : String) : Bool :=
  data.cookies.any (fun c => strToLower c = strToLower cookieName)

/-- Embedding of `matchesRule`: the three early-returning loops become three
`any` clauses, OR'd. -/
def matchesRule (rule : FingerprintRule) (data : ProbeData) : Bool :=
  rule.headers.any (fun hm => headerCondMatches data hm)
  || rule.body.any (fun substr => bodyCondMatches data substr)
  || rule.cookies.any (fun cookieName => cookieCondMatches data cookieName)

/-- The fallback probe data built by `FingerprintServices` when no probe data
is available for a service: headers only, from the stored `Server` value. -/
def fallbackData (svc : HTTPService) : ProbeData :=
  { headers := if svc.server ≠ "" then [("server", svc.server)] else []
    body := ""
    cookies := [] }

/-- Per-service body of the `FingerprintServices` loop: each firing rule
contributes its Technology record. -/
def fingerprintService (rules : List FingerprintRule) (pd : Option ProbeData)
    (svc : HTTPService) : HTTPService :=
  let data := pd.getD (fallbackData svc)
  let techs := (rules.filter (fun rule => matchesRule rule data)).map
    (fun rule => Technology.mk rule.name rule.category)
  { svc with technologies := techs }

/-- Embedding of `FingerprintServices` over the probe-data map. -/
def FingerprintServices (rules : List FingerprintRule)
    (probeResults : List (String × ProbeData)) (services : List HTTPService) :
    List HTTPService :=
  services.map (fun svc => fingerprintService rules (probeResults.lookup svc.url) svc)

/-! ### Remote-source fetch with retry (`crtsh.go`, `hackertarget.go`, `otx.go`)

`HTTPOutcome` models the result of one `http.DefaultClient.Do` exchange.  Each
`*Fetch` takes the outcomes of the first and the (potential) second request and
returns the fetch result together with the number of requests actually issued.
`cancelled` models the run context becoming done during the backoff sleep. -/

inductive HTTPOutcome where
  | transportErr (msg : String)
  | response (status : Nat) (body : String)
deriving DecidableEq, Repr

/-- Embedding of `crtshDoRequest` (status handling: 429, then non-200). -/
def crtshDoRequest : HTTPOutcome → Except String String
  | .transportErr msg => .error msg
  | .response status body =>
    if status = 429 then .error "crt.sh rate limited (429)"
    else if status ≠ 200 then .error ("crt.sh returned status " ++ toString status)
    else .ok body

/-- Embedding of `crtshFetch`: retry once unless the error mentions 429. -/
def crtshFetch (cancelled : Bool) (first second : HTTPOutcome) :
    Except String String × Nat :=
  match crtshDoRequest first with
  | .ok body => (.ok body, 1)
  | .error e =>
    if strContains e "429" then (.error e, 1)
    else if cancelled then (.error "context canceled", 1)
    else (crtshDoRequest second, 2)

/-- Embedding of `hackertargetDoRequest` (429, then ≥500, then non-200, then
the in-band rate-limit message). -/
def hackertargetDoRequest : HTTPOutcome → Except String String
  | .transportErr msg => .error msg
  | .response status body =>
    if status = 429 then .error "hackertarget rate limited (429)"
    else if status ≥ 500 then .error ("hackertarget returned status " ++ toString status)
    else if status ≠ 200 then .error ("hackertarget returned status " ++ toString status)
    else if strContains body "API count exceeded" then
      .error "hackertarget: API count exceeded"
    else .ok body

/-- Embedding of `hackertargetFetch`. -/
def hackertargetFetch (cancelled : Bool) (first second : HTTPOutcome) :
    Except String String × Nat :=
  match hackertargetDoRequest first with
  | .ok body => (.ok body, 1)
  | .error e =>
    if strContains e "429" || strContains e "API count exceeded" then (.error e, 1)
    else if cancelled then (.error "context canceled", 1)
    else (hackertargetDoRequest second, 2)

/-- Embedding of `otxDoRequest` (429, then ≥500, then non-200). -/
def otxDoRequest : HTTPOutcome → Except String String
  | .transportErr msg => .error msg
  | .response status body =>
    if status = 429 then .error "otx rate limited (429)"
    else if status ≥ 500 then .error ("otx returned status " ++ toString status)
    else if status ≠ 200 then .error ("otx returned status " ++ toString status)
    else .ok body

/-- Embedding of `otxFetch`. -/
def otxFetch (cancelled : Bool) (first second : HTTPOutcome) :
    Except String String × Nat :=
  match otxDoRequest first with
  | .ok body => (.ok body, 1)
  | .error e =>
    if strContains e "429" then (.error e, 1)
    else if cancelled then (.error "context canceled", 1)
    else (otxDoRequest second, 2)

/-! ### Zone transfer prober (`internal/recon/zonetransfer.go`) -/

structure ZoneTransferResult where
  transfers : List ZoneTransfer
  hostnames : List String
deriving DecidableEq, Repr

/-- Appends each hostname not seen before (the `seen` map of
`AttemptZoneTransfers`, whose contents coincide with the accumulated list). -/
def addUniqueHostnames (acc : List String) (hostnames : List String) : List String :=
  hostnames.foldl (fun l h => if h ∈ l then l else l ++ [h]) acc

/-- Is the run context done when the loop reaches iteration `i`?
`cancelledFrom = some k` models cancellation arriving before iteration `k`. -/
def cancelledAt (cancelledFrom : Option Nat) (i : Nat) : Bool :=
  match cancelledFrom with
  | none => false
  | some k => k ≤ i

/-- The per-nameserver loop of `AttemptZoneTransfers`.  `axfrOutcome ns`
models `attemptAXFR` against nameserver `ns` (already dot-trimmed):
the in-domain hostnames harvested, or an error. -/
def ztLoop (axfrOutcome : String → Except String (List String))
    (cancelledFrom : Option Nat) :
    List String → Nat → ZoneTransferResult → ZoneTransferResult × Option String
  | [], _, acc => (acc, none)
  | ns :: rest, i, acc =>
    if cancelledAt cancelledFrom i then (acc, some "context canceled")
    else
      let nsHost := strTrimSuffix ns "."
      match axfrOutcome nsHost with
      | .error _ =>
        ztLoop axfrOutcome cancelledFrom rest (i + 1)
          { acc with transfers := acc.transfers ++ [ZoneTransfer.mk nsHost false 0] }
      | .ok hostnames =>
        ztLoop axfrOutcome cancelledFrom rest (i + 1)
          { transfers := acc.transfers ++ [ZoneTransfer.mk nsHost true hostnames.length]
            hostnames := addUniqueHostnames acc.hostnames hostnames }

/-- Embedding of `AttemptZoneTransfers`.  `nsLookup` models
`net.DefaultResolver.LookupNS` (nameserver hosts, possibly dot-terminated).
Returns the (possibly `none`, i.e. Go `nil`) result and the returned error. -/
def AttemptZoneTransfers (domain : String) (nsLookup : Except String (List String))
    (cancelledFrom : Option Nat) (axfrOutcome : String → Except String (List String)) :
    Option ZoneTransferResult × Option String :=
  match nsLookup with
  | .error e => (none, some ("NS lookup for " ++ domain ++ ": " ++ e))
  | .ok nameservers =>
    if nameservers.length = 0 then (none, some ("no NS records for " ++ domain))
    else
      (some (ztLoop axfrOutcome cancelledFrom nameservers 0 ⟨[], []⟩).1,
       (ztLoop axfrOutcome cancelledFrom nameservers 0 ⟨[], []⟩).2)

/-! ### Subdomain aggregation (`internal/recon/enumerator.go`, `Enumerate`)

The shared `hostSources` map is embedded as an association list in insertion
order; Go's `hostSources[h] = append(hostSources[h], src)` becomes `addHost`.
The concurrent sources are sequentialized in the order they are spawned;
each source's outcome is an input (`Except`: hosts found, or the error the
goroutine would have reported). -/

/-- `hostSources[h] = append(hostSources[h], src)`. -/
def addHost : List (String × List String) → String → String → List (String × List String)
  | [], h, src => [(h, [src])]
  | (k, ss) :: rest, h, src =>
    if k = h then (k, ss ++ [src]) :: rest
    else (k, ss) :: addHost rest h src

/-- Record every host of one successful source. -/
def addHosts (m : List (String × List String)) (src : String)
    (hosts : List String) : List (String × List String) :=
  hosts.foldl (fun acc h => addHost acc h src) m

/-- Insertion step for the final `sort.Slice` by host. -/
def insertSorted (x : Subdomain) : List Subdomain → List Subdomain
  | [] => [x]
  | y :: rest => if x.host < y.host then x :: y :: rest else y :: insertSorted x rest

/-- The final sort of `Enumerate` (`sort.Slice` by `Host`). -/
def sortByHost (l : List Subdomain) : List Subdomain := l.foldr insertSorted []

/-- What `Enumerate` returns: subdomains plus the state the enumerator
exposes through `GetZoneTransfers` / `GetWarnings`. -/
structure EnumOutput where
  subdomains : List Subdomain
  zoneTransfers : List ZoneTransfer
  warnings : List String
deriving DecidableEq, Repr

/-- One source goroutine's effect on the shared `hostSources` map: a
successful source records every host it found under its name; a failed
source leaves the map untouched (its error becoming a warning). -/
def applySource (m : List (String × List String)) (name : String)
    (res : Except String (List String)) : List (String × List String) :=
  match res with
  | .ok hs => addHosts m name hs
  | .error _ => m

/-- The hostnames the AXFR goroutine contributes: those of a successful
`AttemptZoneTransfers`; a disabled or failed AXFR contributes nothing. -/
def axfrHostsRes : Option (Except String ZoneTransferResult) →
    Except String (List String)
  | some (.ok zt) => .ok zt.hostnames
  | some (.error e) => .error e
  | none => .error "axfr disabled"

/-- The `hostSources` map after all source goroutines have finished. -/
def enumHostSources (domain : String)
    (crtsh brute hackertarget otx : Except String (List String))
    (axfr : Option (Except String ZoneTransferResult)) :
    List (String × List String) :=
  applySource
    (applySource
      (applySource
        (applySource
          (applySource [(strToLower domain, ["root"])] "crt.sh" crtsh)
          "brute" brute)
        "hackertarget" hackertarget)
      "otx" otx)
    "axfr" (axfrHostsRes axfr)

/-- The warnings the enumerator accumulates (hackertarget and otx errors, zone
transfer errors, and the successful-zone-transfer notice). -/
def enumWarnings (hackertarget otx : Except String (List String))
    (axfr : Option (Except String ZoneTransferResult)) : List String :=
  (match hackertarget with
   | .error e => ["hackertarget: " ++ e]
   | .ok _ => [])
  ++ (match otx with
      | .error e => ["otx: " ++ e]
      | .ok _ => [])
  ++ (match axfr with
      | none => []
      | some (.error e) => ["zone transfer: " ++ e]
      | some (.ok zt) =>
        let successCount := (zt.transfers.filter (fun t => t.success)).length
        if successCount > 0 then
          ["zone transfer enabled on " ++ toString successCount ++ " of "
            ++ toString zt.transfers.length ++ " nameservers"]
        else [])

/-- Embedding of `Enumerator.Enumerate`.  `axfr = none` models AXFR disabled;
`some r` the outcome of `AttemptZoneTransfers`. -/
def Enumerate (domain : String)
    (crtsh brute hackertarget otx : Except String (List String))
    (axfr : Option (Except String ZoneTransferResult)) :
    Except String EnumOutput :=
  let m := enumHostSources domain crtsh brute hackertarget otx axfr
  if m.length = 0 then .error ("all subdomain sources failed for " ++ domain)
  else
    .ok { subdomains :=
            sortByHost (m.map (fun p => Subdomain.mk p.1 (deduplicateSources p.2)))
          zoneTransfers :=
            match axfr with
            | some (.ok zt) => zt.transfers
            | _ => []
          warnings := enumWarnings hackertarget otx axfr }

/-! ### Pipeline orchestration (`internal/engine/engine.go`, `Run`)

The stage implementations are passed in as functions; the instrumentation
fields `scannerCalled` / `proberCalled` / `fingerprinterCalled` record which
stages the orchestrator actually invoked (the Go code only reaches those calls
on the corresponding branch). -/

structure RunResult where
  target : String
  subdomains : List Subdomain
  dnsRecords : List DNSResult
  openPorts : List PortResult
  httpServices : List HTTPService
  danglingCNAMEs : List DanglingCNAME
  zoneTransfers : List ZoneTransfer
  warnings : List String
  summary : Summary
  scannerCalled : Bool
  proberCalled : Bool
  fingerprinterCalled : Bool
deriving DecidableEq, Repr

/-- Embedding of `buildSummary`. -/
def buildSummary (subdomains : List Subdomain) (dnsRecords : List DNSResult)
    (openPorts : List PortResult) (httpServices : List HTTPService)
    (danglings : List DanglingCNAME) (zoneTransfers : List ZoneTransfer) : Summary :=
  { subdomainsFound := subdomains.length
    liveHosts :=
      (deduplicateStrings ((dnsRecords.filter (fun r => r.ips.length > 0)).map
        (fun r => r.host))).length
    openPortCount := openPorts.length
    httpServiceCount := httpServices.length
    techCount :=
      (deduplicateStrings (httpServices.flatMap (fun svc =>
        svc.technologies.map (fun t => t.name)))).length
    danglingCNAMEs := danglings.length
    zoneTransferCount := (zoneTransfers.filter (fun zt => zt.success)).length }

/-- Embedding of `engine.Run`.  Stage behaviours are inputs:
`enumerate` is the enumerator's outcome, `resolve`, `scan`, `probe` and
`fingerprint` the other stages' behaviours as functions of their inputs. -/
def Run (target : String)
    (enumerate : Except String EnumOutput)
    (resolve : List String → (List DNSResult × List DanglingCNAME) × Option String)
    (scan : List DNSResult → List PortResult × Option String)
    (probe : List PortResult → List HTTPService × Option String)
    (fingerprint : List HTTPService → List HTTPService) :
    Except String RunResult :=
  match enumerate with
  | .error e => .error ("subdomain enumeration failed: " ++ e)
  | .ok eout =>
    if eout.subdomains.length = 0 then
      .error ("no subdomains discovered for " ++ target)
    else
      let hosts := eout.subdomains.map (fun s => s.host)
      let resolveOut := resolve hosts
      let dnsRecords := resolveOut.1.1
      let danglings := resolveOut.1.2
      let liveHostCount := (dnsRecords.filter (fun r => r.ips.length > 0)).length
      if liveHostCount = 0 then
        .ok { target := target
              subdomains := eout.subdomains
              dnsRecords := dnsRecords
              openPorts := []
              httpServices := []
              danglingCNAMEs := danglings
              zoneTransfers := eout.zoneTransfers
              warnings := eout.warnings
              summary := buildSummary eout.subdomains dnsRecords [] [] danglings
                eout.zoneTransfers
              scannerCalled := false
              proberCalled := false
              fingerprinterCalled := false }
      else
        let scanOut := scan dnsRecords
        let openPorts := scanOut.1
        if openPorts.length = 0 then
          .ok { target := target
                subdomains := eout.subdomains
                dnsRecords := dnsRecords
                openPorts := openPorts
                httpServices := []
                danglingCNAMEs := danglings
                zoneTransfers := eout.zoneTransfers
                warnings := eout.warnings
                summary := buildSummary eout.subdomains dnsRecords openPorts []
                  danglings eout.zoneTransfers
                scannerCalled := true
                proberCalled := false
                fingerprinterCalled := false }
        else
          let probeOut := probe openPorts
          let services0 := probeOut.1
          let services :=
            if services0.length > 0 then fingerprint services0 else services0
          .ok { target := target
                subdomains := eout.subdomains
                dnsRecords := dnsRecords
                openPorts := openPorts
                httpServices := services
                danglingCNAMEs := danglings
                zoneTransfers := eout.zoneTransfers
                warnings := eout.warnings
                summary := buildSummary eout.subdomains dnsRecords openPorts services
                  danglings eout.zoneTransfers
                scannerCalled := true
                proberCalled := true
                fingerprinterCalled := services0.length > 0 }

/-! ### Specification-side helper definitions -/

/-- Lookup in the `hostSources` association list (first matching key). -/
def lookupSources : List (String × List String) → String → Option (List String)
  | [], _ => none
  | (k, ss) :: rest, h => if k = h then some ss else lookupSources rest h

/-- The `ZoneTransfer` entry `AttemptZoneTransfers` records for one
nameserver, as a function of the AXFR outcome. -/
def ztEntry (axfrOutcome : String → Except String (List String)) (ns : String) :
    ZoneTransfer :=
  let nsHost := strTrimSuffix ns "."
  match axfrOutcome nsHost with
  | .ok hostnames => ZoneTransfer.mk nsHost true hostnames.length
  | .error _ => ZoneTransfer.mk nsHost false 0

/-- The source names that can have run (and succeeded) in one `Enumerate`
invocation with the given source outcomes. -/
def enumRanSources (crtsh brute hackertarget otx : Except String (List String))
    (axfr : Option (Except String ZoneTransferResult)) : List String :=
  "root" ::
    ((match crtsh with | .ok _ => ["crt.sh"] | .error _ => [])
     ++ (match brute with | .ok _ => ["brute"] | .error _ => [])
     ++ (match hackertarget with | .ok _ => ["hackertarget"] | .error _ => [])
     ++ (match otx with | .ok _ => ["otx"] | .error _ => [])
     ++ (match axfr with | some (.ok _) => ["axfr"] | _ => []))

/-- The five source goroutines of one `Enumerate` invocation, as the
association of each source name with its outcome, in the order the sources
are applied to the shared map. -/
def enumSourceRuns (crtsh brute hackertarget otx : Except String (List String))
    (axfr : Option (Except String ZoneTransferResult)) :
    List (String × Except String (List String)) :=
  [("crt.sh", crtsh), ("brute", brute), ("hackertarget", hackertarget),
   ("otx", otx), ("axfr", axfrHostsRes axfr)]

/-- Every entry of a `hostSources` map is well-formed: non-empty provenance
drawn from `allowed`, and a lower-cased hostname. -/
def EntriesOK (allowed : List String) (m : List (String × List String)) : Prop :=
  ∀ p ∈ m, p.2 ≠ [] ∧ (∀ s ∈ p.2, s ∈ allowed) ∧ IsLowered p.1

/-- The composed pipeline on a context that is cancelled before any stage
starts: every remote HTTP source fails with the context error, the brute-force
sweep finds nothing (its workers stop before resolving anything), and every
later stage sees the already-done context. -/
def runWithCancelledStages (domain : String) : Except String RunResult :=
  Run domain
    (Enumerate domain (.error "context canceled") (.ok [])
      (.error "context canceled") (.error "context canceled") none)
    (fun hosts => DNSResolve true (fun _ => .error (.otherErr "context canceled"))
      (fun _ => .error (.otherErr "context canceled")) hosts)
    (fun recs => PortScan true (fun _ _ => false) recs [80, 443])
    (fun ps => ((HTTPProbe true (fun _ => "") (fun _ _ => none) ps).1.1,
                (HTTPProbe true (fun _ => "") (fun _ _ => none) ps).2))
    (fun svcs => FingerprintServices [] [] svcs)

/-! ## Helper lemmas -/

theorem charToLower_idem (c : Char) : charToLower (charToLower c) = charToLower c := by
  by_cases h : c.toNat ≥ 65 ∧ c.toNat ≤ 90
  · have hval : (Char.ofNat (c.toNat + 32)).toNat = c.toNat + 32 := by
      rw [Char.ofNat, dif_pos (Or.inl (by omega : c.toNat + 32 < 0xd800))]
      rfl
    have hc : charToLower c = Char.ofNat (c.toNat + 32) := by
      rw [charToLower, if_pos h]
    rw [hc, charToLower, hval, if_neg (by omega)]
  · have hc : charToLower c = c := by rw [charToLower, if_neg h]
    rw [hc, hc]

theorem strToLower_idem (s : String) : strToLower (strToLower s) = strToLower s := by
  have hf : charToLower ∘ charToLower = charToLower := funext charToLower_idem
  simp [strToLower, List.map_map, hf]

theorem isLowered_strToLower (s : String) : IsLowered (strToLower s) :=
  strToLower_idem s

theorem mem_dedupAux {x : String} :
    ∀ (ss seen : List String), x ∈ dedupAux seen ss ↔ x ∈ ss ∧ x ∉ seen := by
  intro ss
  induction ss with
  | nil => intro seen; simp [dedupAux]
  | cons s rest ih =>
    intro seen
    by_cases hs : s ∈ seen
    · rw [dedupAux, if_pos hs, ih]
      constructor
      · rintro ⟨h1, h2⟩; exact ⟨List.mem_cons_of_mem _ h1, h2⟩
      · rintro ⟨h1, h2⟩
        rcases List.mem_cons.mp h1 with rfl | h1
        · exact absurd hs h2
        · exact ⟨h1, h2⟩
    · rw [dedupAux, if_neg hs]
      constructor
      · intro h
        rcases List.mem_cons.mp h with rfl | h
        · exact ⟨List.mem_cons_self _ _, hs⟩
        · rw [ih] at h
          refine ⟨List.mem_cons_of_mem _ h.1, fun hx => h.2 (List.mem_cons_of_mem _ hx)⟩
      · rintro ⟨h1, h2⟩
        rcases List.mem_cons.mp h1 with rfl | h1
        · exact List.mem_cons_self _ _
        · by_cases hxs : x = s
          · subst hxs; exact List.mem_cons_self _ _
          · exact List.mem_cons_of_mem _ (ih _ |>.mpr ⟨h1, by
              intro hx
              rcases List.mem_cons.mp hx with h | h
              · exact hxs h
              · exact h2 h⟩)

theorem nodup_dedupAux : ∀ (ss seen : List String), (dedupAux seen ss).Nodup := by
  intro ss
  induction ss with
  | nil => intro seen; simp [dedupAux]
  | cons s rest ih =>
    intro seen
    by_cases hs : s ∈ seen
    · rw [dedupAux, if_pos hs]; exact ih seen
    · rw [dedupAux, if_neg hs]
      refine List.Nodup.cons ?_ (ih (s :: seen))
      intro hmem
      exact ((mem_dedupAux rest (s :: seen)).mp hmem).2 (List.mem_cons_self _ _)

theorem mem_deduplicateSources {x : String} (ss : List String) :
    x ∈ deduplicateSources ss ↔ x ∈ ss := by
  rw [deduplicateSources, mem_dedupAux]
  simp

theorem nodup_deduplicateSources (ss : List String) : (deduplicateSources ss).Nodup :=
  nodup_dedupAux ss []


theorem resolveHost_error_fst (host : String) (cnameRes : Except LookupErr String)
    (e : LookupErr) : (resolveHost host cnameRes (.error e)).1 = none := by
  simp only [resolveHost]
  split <;> rfl

theorem resolveHost_ok (host : String) (cnameRes : Except LookupErr String)
    (ips : List String) :
    resolveHost host cnameRes (.ok ips)
      = (some ⟨host, deduplicateStrings ips, cnameOf host cnameRes⟩, none) := by
  simp only [resolveHost]

theorem resolveHost_ok_snd (host : String) (cnameRes : Except LookupErr String)
    (ips : List String) : (resolveHost host cnameRes (.ok ips)).2 = none := by
  rw [resolveHost_ok]

/-- C3: takeover-candidate classification.  A CNAME target matching the
vulnerable-suffix list yields exactly one candidate, "NXDOMAIN" for a
host-not-found failure and "SERVFAIL" for a server-side failure; a
non-matching target yields no candidate for any failure; and a successful
resolution is never classified (`checkDangling` with a nil error returns
nothing, and `DNSResolve` emits no candidate when `LookupHost` succeeds). -/
theorem checkDangling_classification (host cname msg : String)
    (hmatch : danglingPatterns.any (fun p => strEndsWith (strToLower cname) p) = true) :
    checkDangling host cname (some (.dnsError true msg))
      = some (DanglingCNAME.mk host cname "NXDOMAIN")
  ∧ checkDangling host cname (some (.dnsError false msg))
      = some (DanglingCNAME.mk host cname "SERVFAIL")
  ∧ (∀ h c e, danglingPatterns.any (fun p => strEndsWith (strToLower c) p) = false →
      checkDangling h c e = none)
  ∧ (∀ h c, checkDangling h c none = none)
  ∧ (∀ h cnameRes ips, (resolveHost h cnameRes (.ok ips)).2 = none) := by
  refine ⟨?_, ?_, ?_, ?_, ?_⟩
  · simp [checkDangling, classifyDNSError, hmatch]
  · simp [checkDangling, classifyDNSError, hmatch]
  · intro h c e hno
    simp [checkDangling, hno]
  · intro h c
    cases hm : danglingPatterns.any (fun p => strEndsWith (strToLower c) p) <;>
      simp [checkDangling, classifyDNSError, hm]
  · intro h cnameRes ips
    exact resolveHost_ok_snd h cnameRes ips

theorem checkDangling_classification_witness :
    checkDangling "blog.example.com" "old-blog.herokuapp.com"
        (some (.dnsError true "lookup old-blog.herokuapp.com: no such host"))
      = some (DanglingCNAME.mk "blog.example.com" "old-blog.herokuapp.com" "NXDOMAIN") :=
  (checkDangling_classification "blog.example.com" "old-blog.herokuapp.com"
    "lookup old-blog.herokuapp.com: no such host" (by decide)).1

theorem probePort_eq (titleOf : String → String)
    (respond : String → Option HTTPResponse) (pr : PortResult) :
    probePort titleOf respond pr =
      if pr.port ∈ tlsFirstPorts then
        match respond "https" with
        | some r => some (mkService titleOf pr "https" r, mkProbeData r)
        | none => probeURL titleOf pr "http" (respond "http")
      else
        match respond "http" with
        | some r => some (mkService titleOf pr "http" r, mkProbeData r)
        | none => probeURL titleOf pr "https" (respond "https") := by
  by_cases hp : pr.port ∈ tlsFirstPorts <;>
    cases hs : respond "https" <;> cases hh : respond "http" <;>
      simp [probePort, hp, List.findSome?, probeURL, hs, hh]

/-- C4: HTTP probe scheme selection.  TLS-conventional ports are tried
https-first with http fallback, other ports http-first with https fallback;
the first scheme yielding any response (any status code) determines the
result; no response under either scheme yields no service; and `HTTPProbe`
produces at most one service per open port. -/
theorem probePort_scheme_selection (titleOf : String → String)
    (respond : String → Option HTTPResponse) (pr : PortResult) :
    (probePort titleOf respond pr = none ↔ respond "http" = none ∧ respond "https" = none)
  ∧ (∀ r, pr.port ∈ tlsFirstPorts → respond "https" = some r →
      probePort titleOf respond pr = some (mkService titleOf pr "https" r, mkProbeData r))
  ∧ (∀ r, pr.port ∉ tlsFirstPorts → respond "http" = some r →
      probePort titleOf respond pr = some (mkService titleOf pr "http" r, mkProbeData r))
  ∧ (pr.port ∈ tlsFirstPorts → respond "https" = none →
      probePort titleOf respond pr = probeURL titleOf pr "http" (respond "http"))
  ∧ (pr.port ∉ tlsFirstPorts → respond "http" = none →
      probePort titleOf respond pr = probeURL titleOf pr "https" (respond "https"))
  ∧ (∀ (cancelled : Bool) (openPorts : List PortResult)
      (respondAll : PortResult → String → Option HTTPResponse),
      ((HTTPProbe cancelled titleOf respondAll openPorts).1.1).length
        ≤ openPorts.length) := by
  refine ⟨?_, ?_, ?_, ?_, ?_, ?_⟩
  · rw [probePort_eq]
    by_cases hp : pr.port ∈ tlsFirstPorts <;>
      cases hs : respond "https" <;> cases hh : respond "http" <;>
        simp [hp, probeURL, hs, hh]
  · intro r hp hs
    rw [probePort_eq, if_pos hp, hs]
  · intro r hp hh
    rw [probePort_eq, if_neg hp, hh]
  · intro hp hs
    rw [probePort_eq, if_pos hp, hs]
  · intro hp hh
    rw [probePort_eq, if_neg hp, hh]
  · intro cancelled openPorts respondAll
    cases cancelled
    · simpa [HTTPProbe] using List.length_filterMap_le _ openPorts
    · simp [HTTPProbe]

theorem probePort_scheme_selection_witness :
    probePort (fun _ => "")
        (fun s => if s = "https" then some (HTTPResponse.mk 503 [] "" [] 0) else none)
        (PortResult.mk "h.example.com" "192.0.2.1" 443)
      = some (mkService (fun _ => "") (PortResult.mk "h.example.com" "192.0.2.1" 443)
          "https" (HTTPResponse.mk 503 [] "" [] 0),
          mkProbeData (HTTPResponse.mk 503 [] "" [] 0)) :=
  (probePort_scheme_selection (fun _ => "")
    (fun s => if s = "https" then some (HTTPResponse.mk 503 [] "" [] 0) else none)
    (PortResult.mk "h.example.com" "192.0.2.1" 443)).2.1
    (HTTPResponse.mk 503 [] "" [] 0) (by decide) (by decide)

/-- C10: the DNS resolution, port scanning and HTTP probing stages return a
nil error for every input — including an already-cancelled context — and a
host whose address lookup fails is simply omitted from the records, so these
calls never trigger the orchestrator's stage-degraded warning branch. -/
theorem stages_never_error (cancelled : Bool)
    (cnameOracle : String → Except LookupErr String)
    (hostOracle : String → Except LookupErr (List String)) (hosts : List String)
    (dialOk : String → Nat → Bool) (dnsRecords : List DNSResult) (ports : List Nat)
    (titleOf : String → String) (respond : PortResult → String → Option HTTPResponse)
    (openPorts : List PortResult) :
    (DNSResolve cancelled cnameOracle hostOracle hosts).2 = none
  ∧ (PortScan cancelled dialOk dnsRecords ports).2 = none
  ∧ (HTTPProbe cancelled titleOf respond openPorts).2 = none
  ∧ (DNSResolve false cnameOracle hostOracle hosts).1.1.map (fun r => r.host)
      = hosts.filter (fun h => (hostOracle h).toOption.isSome) := by
  refine ⟨?_, ?_, ?_, ?_⟩
  · cases cancelled <;> simp [DNSResolve]
  · cases cancelled <;> simp [PortScan]
  · cases cancelled <;> simp [HTTPProbe]
  · simp only [DNSResolve, Bool.false_eq_true, if_false]
    induction hosts with
    | nil => simp [dnsLoop]
    | cons h rest ih =>
      rw [dnsLoop, List.filter_cons]
      cases hh : hostOracle h with
      | error e =>
        rw [resolveHost_error_fst h (cnameOracle h) e]
        simp [Except.toOption, ih]
      | ok ips =>
        rw [resolveHost_ok]
        simp [Except.toOption, ih]

/-- C6 counterexample: a 404 response is neither a server-side (5xx/transport)
error nor a rate-limit, yet `otxFetch` issues a second request (retries). -/
theorem otxFetch_retries_on_404 :
    otxFetch false (.response 404 "") (.response 404 "")
      = (.error ("otx returned status " ++ toString 404), 2) := rfl

/-- C6 (amended): each remote source issues at most one retry; any failed
first request is retried except a rate-limit outcome (HTTP 429, or
HackerTarget's in-band rate message), which is returned immediately; and a
failed HackerTarget source surfaces as a warning in the enumerator output
rather than failing the run (`Enumerate` still succeeds). -/
theorem fetch_retry_policy_amended (cancelled : Bool) (first second : HTTPOutcome) :
    ((otxFetch cancelled first second).2 ≤ 2
      ∧ (crtshFetch cancelled first second).2 ≤ 2
      ∧ (hackertargetFetch cancelled first second).2 ≤ 2)
  ∧ (∀ e, otxDoRequest first = .error e → strContains e "429" = false →
      otxFetch false first second = (otxDoRequest second, 2))
  ∧ (∀ b, otxFetch cancelled (.response 429 b) second
      = (.error "otx rate limited (429)", 1))
  ∧ (∀ e, crtshDoRequest first = .error e → strContains e "429" = false →
      crtshFetch false first second = (crtshDoRequest second, 2))
  ∧ (∀ b, crtshFetch cancelled (.response 429 b) second
      = (.error "crt.sh rate limited (429)", 1))
  ∧ (∀ e, hackertargetDoRequest first = .error e → strContains e "429" = false →
      strContains e "API count exceeded" = false →
      hackertargetFetch false first second = (hackertargetDoRequest second, 2))
  ∧ (∀ b, hackertargetFetch cancelled (.response 429 b) second
      = (.error "hackertarget rate limited (429)", 1))
  ∧ (∀ b s2, strContains b "API count exceeded" = true →
      hackertargetFetch cancelled (.response 200 b) s2
        = (.error "hackertarget: API count exceeded", 1)) := by
  refine ⟨⟨?_, ?_, ?_⟩, ?_, ?_, ?_, ?_, ?_, ?_, ?_⟩
  · rw [otxFetch]
    cases otxDoRequest first with
    | ok b => simp
    | error e =>
      by_cases h1 : strContains e "429" = true
      · simp [h1]
      · cases cancelled <;> simp [h1]
  · rw [crtshFetch]
    cases crtshDoRequest first with
    | ok b => simp
    | error e =>
      by_cases h1 : strContains e "429" = true
      · simp [h1]
      · cases cancelled <;> simp [h1]
  · rw [hackertargetFetch]
    cases hackertargetDoRequest first with
    | ok b => simp
    | error e =>
      by_cases h1 : (strContains e "429" || strContains e "API count exceeded") = true
      · simp [h1]
      · cases cancelled <;> simp [h1]
  · intro e he h429
    rw [otxFetch, he]
    simp [h429]
  · intro b
    have h : strContains "otx rate limited (429)" "429" = true := by decide
    rw [otxFetch]
    simp [otxDoRequest, h]
  · intro e he h429
    rw [crtshFetch, he]
    simp [h429]
  · intro b
    have h : strContains "crt.sh rate limited (429)" "429" = true := by decide
    rw [crtshFetch]
    simp [crtshDoRequest, h]
  · intro e he h429 hrate
    rw [hackertargetFetch, he]
    simp [h429, hrate]
  · intro b
    have h : strContains "hackertarget rate limited (429)" "429" = true := by decide
    rw [hackertargetFetch]
    simp [hackertargetDoRequest, h]
  · intro b s2 hrate
    have h : strContains "hackertarget: API count exceeded" "API count exceeded" = true := by
      decide
    rw [hackertargetFetch]
    simp [hackertargetDoRequest, hrate, h]

theorem fetch_retry_policy_amended_witness :
    otxFetch false (.transportErr "connection refused") (.response 200 "{}")
      = (otxDoRequest (.response 200 "{}"), 2) :=
  (fetch_retry_policy_amended false (.transportErr "connection refused")
    (.response 200 "{}")).2.1 "connection refused" rfl (by decide)

/-- C8 counterexample: a header condition with an empty pattern does not fire
on mere presence of the header — the rule does not match when the header is
present with an empty value. -/
theorem matchesRule_empty_pattern_needs_value :
    ((ProbeData.mk [("x-foo", "")] "" []).headers.lookup (strToLower "x-foo")).isSome
        = true
  ∧ matchesRule (FingerprintRule.mk "Probe" "misc" [HeaderMatch.mk "x-foo" "" none] [] [])
      (ProbeData.mk [("x-foo", "")] "" []) = false := by
  constructor
  · rfl
  · rfl

/-- C8 (amended): a rule fires iff at least one of its declared header, body
or cookie conditions matches (conditions are OR'd; bodies and cookies match
case-insensitively); a header condition with an empty pattern fires exactly
on presence of that header with a non-empty value; and every firing rule
contributes its Technology record to the service (multiple rules may fire). -/
theorem matchesRule_semantics (rule : FingerprintRule) (data : ProbeData) :
    (matchesRule rule data = true ↔
      (∃ hm ∈ rule.headers, headerCondMatches data hm = true)
      ∨ (∃ s ∈ rule.body, bodyCondMatches data s = true)
      ∨ (∃ cn ∈ rule.cookies, cookieCondMatches data cn = true))
  ∧ (∀ hm ∈ rule.headers, hm.pattern = "" → ∀ v,
      data.headers.lookup (strToLower hm.name) = some v → v ≠ "" →
      matchesRule rule data = true)
  ∧ (∀ hm ∈ rule.headers, hm.pattern = "" →
      data.headers.lookup (strToLower hm.name) = some "" →
      headerCondMatches data hm = (hm.regex.getD (fun _ => false)) "")
  ∧ (∀ rules svc pd,
      (fingerprintService rules pd svc).technologies
        = (rules.filter (fun r => matchesRule r (pd.getD (fallbackData svc)))).map
            (fun r => Technology.mk r.name r.category)) := by
  refine ⟨?_, ?_, ?_, ?_⟩
  · simp only [matchesRule, Bool.or_eq_true, List.any_eq_true]
    exact or_assoc
  · intro hm hmem hpat v hlook hv
    have hc : headerCondMatches data hm = true := by
      rw [headerCondMatches, hlook]
      simp [hpat, hv]
    rw [matchesRule]
    have : rule.headers.any (fun hm => headerCondMatches data hm) = true :=
      List.any_eq_true.mpr ⟨hm, hmem, hc⟩
    simp [this]
  · intro hm _ hpat hlook
    rw [headerCondMatches, hlook]
    cases hr : hm.regex <;> simp [hpat, hr]
  · intro rules svc pd
    rfl

theorem matchesRule_semantics_witness :
    matchesRule (FingerprintRule.mk "Probe" "misc" [HeaderMatch.mk "server" "" none] [] [])
      (ProbeData.mk [("server", "nginx/1.24.0")] "" []) = true :=
  (matchesRule_semantics
    (FingerprintRule.mk "Probe" "misc" [HeaderMatch.mk "server" "" none] [] [])
    (ProbeData.mk [("server", "nginx/1.24.0")] "" [])).2.1
    (HeaderMatch.mk "server" "" none) (by simp) rfl "nginx/1.24.0" (by decide) (by decide)

theorem ztLoop_no_cancel (axfr : String → Except String (List String)) :
    ∀ (nss : List String) (i : Nat) (acc : ZoneTransferResult),
      (ztLoop axfr none nss i acc).2 = none
      ∧ (ztLoop axfr none nss i acc).1.transfers
          = acc.transfers ++ nss.map (ztEntry axfr) := by
  intro nss
  induction nss with
  | nil => intro i acc; simp [ztLoop]
  | cons ns rest ih =>
    intro i acc
    rw [ztLoop]
    simp only [cancelledAt, Bool.false_eq_true, if_false]
    cases haxfr : axfr (strTrimSuffix ns ".") with
    | error e =>
      refine ⟨(ih (i + 1) _).1, ?_⟩
      rw [(ih (i + 1) _).2]
      simp [ztEntry, haxfr]
    | ok hostnames =>
      refine ⟨(ih (i + 1) _).1, ?_⟩
      rw [(ih (i + 1) _).2]
      simp [ztEntry, haxfr]

/-- C9 counterexample: with a successful NS lookup yielding two nameservers
but the context cancelled after the first AXFR attempt,
`AttemptZoneTransfers` returns an error (the context error) and records only
one of the two nameservers — refuting both the "error iff lookup failed or
empty" equivalence and the "one entry per nameserver" guarantee. -/
theorem attemptZoneTransfers_cancel_error :
    AttemptZoneTransfers "example.com" (.ok ["ns1.example.com.", "ns2.example.com."])
        (some 1) (fun _ => .error "AXFR refused")
      = (some (ZoneTransferResult.mk [ZoneTransfer.mk "ns1.example.com" false 0] []),
         some "context canceled") := rfl

/-- C9 (amended): in the absence of cancellation, `AttemptZoneTransfers`
returns an error iff the NS lookup fails or yields no nameservers; otherwise
it records exactly one `ZoneTransfer` per discovered nameserver in order —
`success = true` with the harvested-record count exactly when that
nameserver's AXFR completed, `success = false` otherwise — and per-nameserver
AXFR failures surface no error.  (A cancellation between nameserver attempts
additionally returns the context error with the partial transfer list.) -/
theorem attemptZoneTransfers_contract (domain : String)
    (nsLookup : Except String (List String))
    (axfr : String → Except String (List String)) :
    ((AttemptZoneTransfers domain nsLookup none axfr).2 = none ↔
      ∃ nss, nsLookup = .ok nss ∧ nss ≠ [])
  ∧ (∀ nss, nsLookup = .ok nss → nss ≠ [] →
      ∃ res, AttemptZoneTransfers domain nsLookup none axfr = (some res, none)
        ∧ res.transfers = nss.map (ztEntry axfr)) := by
  constructor
  · cases nsLookup with
    | error e => simp [AttemptZoneTransfers]
    | ok nss =>
      by_cases hlen : nss.length = 0
      · rw [List.length_eq_zero] at hlen
        subst hlen
        simp [AttemptZoneTransfers]
      · rw [AttemptZoneTransfers.eq_def]
        simp only [if_neg hlen]
        have h2 := (ztLoop_no_cancel axfr nss 0 ⟨[], []⟩).1
        simp [h2]
        intro h
        exact absurd (by simp [h] : nss.length = 0) hlen
  · intro nss hns hne
    subst hns
    have hlen : ¬nss.length = 0 := by
      intro h
      exact hne (List.length_eq_zero.mp h)
    rw [AttemptZoneTransfers.eq_def]
    simp only [if_neg hlen]
    refine ⟨(ztLoop axfr none nss 0 ⟨[], []⟩).1, ?_, ?_⟩
    · rw [(ztLoop_no_cancel axfr nss 0 ⟨[], []⟩).1]
    · rw [(ztLoop_no_cancel axfr nss 0 ⟨[], []⟩).2]
      simp

theorem attemptZoneTransfers_contract_witness :
    (AttemptZoneTransfers "example.com" (.ok ["ns1.example.com."]) none
        (fun _ => .ok ["a.example.com"])).2 = none :=
  (attemptZoneTransfers_contract "example.com" (.ok ["ns1.example.com."])
    (fun _ => .ok ["a.example.com"])).1.mpr ⟨["ns1.example.com."], rfl, by decide⟩

/-! ### Lemmas about the `hostSources` map and the final sort -/

theorem lookupSources_addHost_self (m : List (String × List String)) (h src : String) :
    lookupSources (addHost m h src) h = some ((lookupSources m h).getD [] ++ [src]) := by
  induction m with
  | nil => simp [addHost, lookupSources]
  | cons p rest ih =>
    obtain ⟨k, ss⟩ := p
    by_cases hk : k = h
    · subst hk
      simp [addHost, lookupSources]
    · simp [addHost, lookupSources, hk, ih]

theorem lookupSources_addHost_ne (m : List (String × List String)) (h src k : String)
    (hne : k ≠ h) : lookupSources (addHost m h src) k = lookupSources m k := by
  induction m with
  | nil => simp [addHost, lookupSources, Ne.symm hne]
  | cons p rest ih =>
    obtain ⟨k', ss⟩ := p
    by_cases hk2 : k' = k
    · subst hk2
      simp [addHost, lookupSources, hne]
    · by_cases hk : k' = h
      · subst hk
        simp [addHost, lookupSources, hk2]
      · simp [addHost, lookupSources, hk, hk2, ih]

theorem lookupSources_addHost_mono (m : List (String × List String)) (h src k : String)
    (ss : List String) (hl : lookupSources m k = some ss) :
    ∃ t, lookupSources (addHost m h src) k = some (ss ++ t) := by
  by_cases hk : k = h
  · subst hk
    refine ⟨[src], ?_⟩
    rw [lookupSources_addHost_self, hl]
    rfl
  · exact ⟨[], by rw [lookupSources_addHost_ne m h src k hk, hl, List.append_nil]⟩

theorem lookupSources_addHosts_mono (src : String) :
    ∀ (hosts : List String) (m : List (String × List String)) (k : String)
      (ss : List String), lookupSources m k = some ss →
      ∃ t, lookupSources (addHosts m src hosts) k = some (ss ++ t) := by
  intro hosts
  induction hosts with
  | nil => intro m k ss hl; exact ⟨[], by simp [addHosts, hl]⟩
  | cons x hs ih =>
    intro m k ss hl
    obtain ⟨t1, ht1⟩ := lookupSources_addHost_mono m x src k ss hl
    obtain ⟨t2, ht2⟩ := ih (addHost m x src) k (ss ++ t1) ht1
    exact ⟨t1 ++ t2, by rw [addHosts] at *; simpa [List.append_assoc] using ht2⟩

theorem lookupSources_applySource_mono (res : Except String (List String))
    (name : String) (m : List (String × List String)) (k : String) (ss : List String)
    (hl : lookupSources m k = some ss) :
    ∃ t, lookupSources (applySource m name res) k = some (ss ++ t) := by
  cases res with
  | ok hs => exact lookupSources_addHosts_mono name hs m k ss hl
  | error e => exact ⟨[], by simpa [applySource] using hl⟩

theorem mem_of_lookupSources (k : String) (v : List String) :
    ∀ m : List (String × List String), lookupSources m k = some v → (k, v) ∈ m := by
  intro m
  induction m with
  | nil => intro h; simp [lookupSources] at h
  | cons p rest ih =>
    obtain ⟨k', ss⟩ := p
    intro h
    by_cases hk : k' = k
    · subst hk
      rw [lookupSources, if_pos rfl] at h
      simp at h
      simp [h]
    · rw [lookupSources, if_neg hk] at h
      exact List.mem_cons_of_mem _ (ih h)

theorem perm_insertSorted (x : Subdomain) (l : List Subdomain) :
    (insertSorted x l).Perm (x :: l) := by
  induction l with
  | nil => exact List.Perm.refl _
  | cons y rest ih =>
    rw [insertSorted]
    by_cases h : x.host < y.host
    · rw [if_pos h]
    · rw [if_neg h]
      exact List.Perm.trans (List.Perm.cons y ih) (List.Perm.swap x y rest)

theorem perm_sortByHost (l : List Subdomain) : (sortByHost l).Perm l := by
  induction l with
  | nil => exact List.Perm.refl _
  | cons x rest ih =>
    have : sortByHost (x :: rest) = insertSorted x (sortByHost rest) := rfl
    rw [this]
    exact List.Perm.trans (perm_insertSorted x (sortByHost rest)) (List.Perm.cons x ih)

theorem enumHostSources_root (domain : String)
    (crtsh brute hackertarget otx : Except String (List String))
    (axfr : Option (Except String ZoneTransferResult)) :
    ∃ t, lookupSources (enumHostSources domain crtsh brute hackertarget otx axfr)
        (strToLower domain) = some ("root" :: t) := by
  have h0 : lookupSources [(strToLower domain, ["root"])] (strToLower domain)
      = some ["root"] := by
    simp [lookupSources]
  obtain ⟨t1, h1⟩ := lookupSources_applySource_mono crtsh "crt.sh" _ _ _ h0
  obtain ⟨t2, h2⟩ := lookupSources_applySource_mono brute "brute" _ _ _ h1
  obtain ⟨t3, h3⟩ := lookupSources_applySource_mono hackertarget "hackertarget" _ _ _ h2
  obtain ⟨t4, h4⟩ := lookupSources_applySource_mono otx "otx" _ _ _ h3
  obtain ⟨t5, h5⟩ := lookupSources_applySource_mono (axfrHostsRes axfr) "axfr" _ _ _ h4
  exact ⟨t1 ++ t2 ++ t3 ++ t4 ++ t5, by
    rw [enumHostSources]
    simpa [List.append_assoc] using h5⟩

/-- C2: for every domain and all source outcomes (including every remote
source failing), `Enumerate` succeeds and its subdomain list contains the
lower-cased root domain with `"root"` among its provenance sources. -/
theorem enumerate_root_included (domain : String)
    (crtsh brute hackertarget otx : Except String (List String))
    (axfr : Option (Except String ZoneTransferResult)) :
    ∃ out, Enumerate domain crtsh brute hackertarget otx axfr = .ok out
      ∧ ∃ ss, Subdomain.mk (strToLower domain) ss ∈ out.subdomains
        ∧ "root" ∈ ss := by
  obtain ⟨t, ht⟩ := enumHostSources_root domain crtsh brute hackertarget otx axfr
  have hne : ¬(enumHostSources domain crtsh brute hackertarget otx axfr).length = 0 := by
    intro hlen
    rw [List.length_eq_zero] at hlen
    rw [hlen] at ht
    simp [lookupSources] at ht
  refine ⟨_, by rw [Enumerate.eq_def, if_neg hne], ?_⟩
  refine ⟨deduplicateSources ("root" :: t), ?_, ?_⟩
  · have hmem := mem_of_lookupSources _ _ _ ht
    have hmapped : Subdomain.mk (strToLower domain) (deduplicateSources ("root" :: t))
        ∈ (enumHostSources domain crtsh brute hackertarget otx axfr).map
            (fun p => Subdomain.mk p.1 (deduplicateSources p.2)) :=
      List.mem_map_of_mem _ hmem
    exact ((perm_sortByHost _).mem_iff).mpr hmapped
  · exact (mem_deduplicateSources _).mpr (List.mem_cons_self _ _)

theorem mem_addHost (h src : String) (p : String × List String) :
    ∀ m : List (String × List String), p ∈ addHost m h src →
      p ∈ m ∨ p = (h, [src]) ∨ ∃ ss, (h, ss) ∈ m ∧ p = (h, ss ++ [src]) := by
  intro m
  induction m with
  | nil =>
    intro hp
    rw [addHost] at hp
    simp at hp
    exact Or.inr (Or.inl hp)
  | cons q rest ih =>
    obtain ⟨k, ss⟩ := q
    intro hp
    rw [addHost] at hp
    by_cases hk : k = h
    · subst hk
      rw [if_pos rfl] at hp
      rcases List.mem_cons.mp hp with rfl | hp'
      · exact Or.inr (Or.inr ⟨ss, List.mem_cons_self _ _, rfl⟩)
      · exact Or.inl (List.mem_cons_of_mem _ hp')
    · rw [if_neg hk] at hp
      rcases List.mem_cons.mp hp with rfl | hp'
      · exact Or.inl (List.mem_cons_self _ _)
      · rcases ih hp' with h1 | h2 | ⟨ss', hss', rfl⟩
        · exact Or.inl (List.mem_cons_of_mem _ h1)
        · exact Or.inr (Or.inl h2)
        · exact Or.inr (Or.inr ⟨ss', List.mem_cons_of_mem _ hss', rfl⟩)

theorem entriesOK_addHost (allowed : List String) (m : List (String × List String))
    (h src : String) (hm : EntriesOK allowed m) (hsrc : src ∈ allowed)
    (hlow : IsLowered h) : EntriesOK allowed (addHost m h src) := by
  intro p hp
  rcases mem_addHost h src p m hp with h1 | rfl | ⟨ss, hss, rfl⟩
  · exact hm p h1
  · exact ⟨by simp, by simpa using hsrc, hlow⟩
  · obtain ⟨_, h2, h3⟩ := hm (h, ss) hss
    refine ⟨by simp, ?_, h3⟩
    intro s hs
    rcases List.mem_append.mp hs with hs' | hs'
    · exact h2 s hs'
    · simp at hs'
      subst hs'
      exact hsrc

theorem entriesOK_addHosts (allowed : List String) (src : String)
    (hsrc : src ∈ allowed) :
    ∀ (hosts : List String) (m : List (String × List String)),
      EntriesOK allowed m → (∀ x ∈ hosts, IsLowered x) →
      EntriesOK allowed (addHosts m src hosts) := by
  intro hosts
  induction hosts with
  | nil => intro m hm _; exact hm
  | cons x hs ih =>
    intro m hm hlow
    exact ih (addHost m x src)
      (entriesOK_addHost allowed m x src hm hsrc (hlow x (List.mem_cons_self _ _)))
      (fun y hy => hlow y (List.mem_cons_of_mem _ hy))

theorem entriesOK_applySource (allowed : List String) (name : String)
    (res : Except String (List String)) (m : List (String × List String))
    (hm : EntriesOK allowed m)
    (hres : ∀ hs, res = .ok hs → name ∈ allowed ∧ ∀ x ∈ hs, IsLowered x) :
    EntriesOK allowed (applySource m name res) := by
  cases res with
  | ok hs =>
    obtain ⟨hname, hlow⟩ := hres hs rfl
    exact entriesOK_addHosts allowed name hname hs m hm hlow
  | error e => exact hm

theorem keys_addHost (m : List (String × List String)) (h src : String) :
    (h ∈ m.map Prod.fst ∧ (addHost m h src).map Prod.fst = m.map Prod.fst)
    ∨ (h ∉ m.map Prod.fst
        ∧ (addHost m h src).map Prod.fst = m.map Prod.fst ++ [h]) := by
  induction m with
  | nil => exact Or.inr ⟨by simp, by simp [addHost]⟩
  | cons q rest ih =>
    obtain ⟨k, ss⟩ := q
    by_cases hk : k = h
    · subst hk
      exact Or.inl ⟨by simp, by simp [addHost]⟩
    · rcases ih with ⟨h1, h2⟩ | ⟨h1, h2⟩
      · exact Or.inl ⟨by simp [h1], by simp [addHost, hk, h2]⟩
      · refine Or.inr ⟨?_, by simp [addHost, hk, h2]⟩
        simp only [List.map_cons, List.mem_cons]
        rintro (hcon | hcon)
        · exact hk hcon.symm
        · exact h1 hcon

theorem nodupKeys_addHost (m : List (String × List String)) (h src : String)
    (hm : (m.map Prod.fst).Nodup) : ((addHost m h src).map Prod.fst).Nodup := by
  rcases keys_addHost m h src with ⟨_, h2⟩ | ⟨h1, h2⟩
  · rw [h2]; exact hm
  · rw [h2, List.nodup_append]
    exact ⟨hm, List.nodup_singleton h, by
      intro x hx hx'
      simp at hx'
      subst hx'
      exact h1 hx⟩

theorem nodupKeys_addHosts (src : String) :
    ∀ (hosts : List String) (m : List (String × List String)),
      (m.map Prod.fst).Nodup → ((addHosts m src hosts).map Prod.fst).Nodup := by
  intro hosts
  induction hosts with
  | nil => intro m hm; exact hm
  | cons x hs ih => intro m hm; exact ih (addHost m x src) (nodupKeys_addHost m x src hm)

theorem nodupKeys_applySource (name : String) (res : Except String (List String))
    (m : List (String × List String)) (hm : (m.map Prod.fst).Nodup) :
    ((applySource m name res).map Prod.fst).Nodup := by
  cases res with
  | ok hs => exact nodupKeys_addHosts name hs m hm
  | error e => exact hm

theorem nodupKeys_enumHostSources (domain : String)
    (crtsh brute hackertarget otx : Except String (List String))
    (axfr : Option (Except String ZoneTransferResult)) :
    ((enumHostSources domain crtsh brute hackertarget otx axfr).map Prod.fst).Nodup := by
  rw [enumHostSources]
  exact nodupKeys_applySource _ _ _ (nodupKeys_applySource _ _ _
    (nodupKeys_applySource _ _ _ (nodupKeys_applySource _ _ _
      (nodupKeys_applySource _ _ _ (by simp)))))

theorem lookupSources_addHosts_self (src : String) :
    ∀ (hosts : List String) (m : List (String × List String)) (h : String),
      h ∈ hosts →
      ∃ ss, lookupSources (addHosts m src hosts) h
          = some ((lookupSources m h).getD [] ++ ss) ∧ src ∈ ss := by
  intro hosts
  induction hosts with
  | nil => intro m h hmem; simp at hmem
  | cons x hs ih =>
    intro m h hmem
    by_cases hin : h ∈ hs
    · obtain ⟨ss, hss, hsrc⟩ := ih (addHost m x src) h hin
      by_cases hx : x = h
      · subst hx
        rw [lookupSources_addHost_self] at hss
        refine ⟨[src] ++ ss, ?_, by simp⟩
        rw [addHosts] at *
        simpa [List.append_assoc] using hss
      · rw [lookupSources_addHost_ne m x src h (fun hcon => hx hcon.symm)] at hss
        exact ⟨ss, by rw [addHosts] at *; exact hss, hsrc⟩
    · have hx : h = x := by
        rcases List.mem_cons.mp hmem with h1 | h1
        · exact h1
        · exact absurd h1 hin
      subst hx
      have hself := lookupSources_addHost_self m h src
      obtain ⟨t, ht⟩ := lookupSources_addHosts_mono src hs (addHost m h src) h _ hself
      refine ⟨[src] ++ t, ?_, by simp⟩
      rw [addHosts] at *
      simpa [List.append_assoc] using ht

theorem lookupSources_applySource_self (name : String) (hs : List String)
    (h : String) (res : Except String (List String)) (hres : res = .ok hs)
    (hmem : h ∈ hs) (m : List (String × List String)) :
    ∃ ss, lookupSources (applySource m name res) h = some ss ∧ name ∈ ss := by
  subst hres
  obtain ⟨ss, hss, hm⟩ := lookupSources_addHosts_self name hs m h hmem
  exact ⟨_, hss, List.mem_append_right _ hm⟩

theorem lookupSources_applySource_mono_mem (res : Except String (List String))
    (name : String) (m : List (String × List String)) (k x : String)
    (ss : List String) (hl : lookupSources m k = some ss) (hx : x ∈ ss) :
    ∃ ss', lookupSources (applySource m name res) k = some ss' ∧ x ∈ ss' := by
  obtain ⟨t, ht⟩ := lookupSources_applySource_mono res name m k ss hl
  exact ⟨_, ht, List.mem_append_left _ hx⟩

/-- Any source that ran and succeeded deposits its name in the final map's
entry of every host it found. -/
theorem lookupSources_enumHostSources_source (domain : String)
    (crtsh brute hackertarget otx : Except String (List String))
    (axfr : Option (Except String ZoneTransferResult))
    (name : String) (hs : List String) (h : String)
    (hrun : (name, Except.ok hs) ∈ enumSourceRuns crtsh brute hackertarget otx axfr)
    (hmem : h ∈ hs) :
    ∃ ss, lookupSources (enumHostSources domain crtsh brute hackertarget otx axfr) h
        = some ss ∧ name ∈ ss := by
  rw [enumHostSources]
  simp only [enumSourceRuns, List.mem_cons, List.mem_singleton, Prod.mk.injEq,
    List.not_mem_nil, or_false] at hrun
  rcases hrun with ⟨rfl, hres⟩ | ⟨rfl, hres⟩ | ⟨rfl, hres⟩ | ⟨rfl, hres⟩ | ⟨rfl, hres⟩
  · obtain ⟨s1, hs1, hm1⟩ :=
      lookupSources_applySource_self "crt.sh" hs h crtsh hres.symm hmem _
    obtain ⟨s2, hs2, hm2⟩ :=
      lookupSources_applySource_mono_mem brute "brute" _ h _ _ hs1 hm1
    obtain ⟨s3, hs3, hm3⟩ :=
      lookupSources_applySource_mono_mem hackertarget "hackertarget" _ h _ _ hs2 hm2
    obtain ⟨s4, hs4, hm4⟩ :=
      lookupSources_applySource_mono_mem otx "otx" _ h _ _ hs3 hm3
    exact lookupSources_applySource_mono_mem (axfrHostsRes axfr) "axfr" _ h _ _ hs4 hm4
  · obtain ⟨s2, hs2, hm2⟩ :=
      lookupSources_applySource_self "brute" hs h brute hres.symm hmem _
    obtain ⟨s3, hs3, hm3⟩ :=
      lookupSources_applySource_mono_mem hackertarget "hackertarget" _ h _ _ hs2 hm2
    obtain ⟨s4, hs4, hm4⟩ :=
      lookupSources_applySource_mono_mem otx "otx" _ h _ _ hs3 hm3
    exact lookupSources_applySource_mono_mem (axfrHostsRes axfr) "axfr" _ h _ _ hs4 hm4
  · obtain ⟨s3, hs3, hm3⟩ :=
      lookupSources_applySource_self "hackertarget" hs h hackertarget hres.symm hmem _
    obtain ⟨s4, hs4, hm4⟩ :=
      lookupSources_applySource_mono_mem otx "otx" _ h _ _ hs3 hm3
    exact lookupSources_applySource_mono_mem (axfrHostsRes axfr) "axfr" _ h _ _ hs4 hm4
  · obtain ⟨s4, hs4, hm4⟩ :=
      lookupSources_applySource_self "otx" hs h otx hres.symm hmem _
    exact lookupSources_applySource_mono_mem (axfrHostsRes axfr) "axfr" _ h _ _ hs4 hm4
  · exact lookupSources_applySource_self "axfr" hs h (axfrHostsRes axfr) hres.symm hmem _

/-- C5: the aggregate invariants of `Enumerate`.  Provided each source returns
lower-cased hostnames (which the source parsers guarantee), every returned
subdomain has a lower-cased hostname; hostnames are pairwise distinct; every
provenance list is non-empty, duplicate-free and drawn from the sources that
ran (and succeeded) in this invocation; and provenance is additive: a host
found by any two of the sources that ran carries both their names. -/
theorem enumerate_aggregate_invariants (domain : String)
    (crtsh brute hackertarget otx : Except String (List String))
    (axfr : Option (Except String ZoneTransferResult))
    (hc : ∀ hs, crtsh = .ok hs → ∀ x ∈ hs, IsLowered x)
    (hb : ∀ hs, brute = .ok hs → ∀ x ∈ hs, IsLowered x)
    (hht : ∀ hs, hackertarget = .ok hs → ∀ x ∈ hs, IsLowered x)
    (hox : ∀ hs, otx = .ok hs → ∀ x ∈ hs, IsLowered x)
    (hax : ∀ zt, axfr = some (.ok zt) → ∀ x ∈ zt.hostnames, IsLowered x) :
    ∃ out, Enumerate domain crtsh brute hackertarget otx axfr = .ok out
      ∧ (∀ sub ∈ out.subdomains, IsLowered sub.host)
      ∧ (out.subdomains.map (fun s => s.host)).Nodup
      ∧ (∀ sub ∈ out.subdomains, sub.sources ≠ [] ∧ sub.sources.Nodup
          ∧ ∀ s ∈ sub.sources, s ∈ enumRanSources crtsh brute hackertarget otx axfr)
      ∧ (∀ h name1 name2 hs1 hs2,
          (name1, Except.ok hs1) ∈ enumSourceRuns crtsh brute hackertarget otx axfr →
          (name2, Except.ok hs2) ∈ enumSourceRuns crtsh brute hackertarget otx axfr →
          h ∈ hs1 → h ∈ hs2 →
          ∃ sub, sub ∈ out.subdomains ∧ sub.host = h ∧ name1 ∈ sub.sources
            ∧ name2 ∈ sub.sources) := by
  obtain ⟨rt, hrt⟩ := enumHostSources_root domain crtsh brute hackertarget otx axfr
  have hne : ¬(enumHostSources domain crtsh brute hackertarget otx axfr).length = 0 := by
    intro hlen
    rw [List.length_eq_zero] at hlen
    rw [hlen] at hrt
    simp [lookupSources] at hrt
  have h0 : EntriesOK (enumRanSources crtsh brute hackertarget otx axfr)
      [(strToLower domain, ["root"])] := by
    intro p hp
    simp at hp
    subst hp
    refine ⟨by simp, ?_, isLowered_strToLower domain⟩
    intro s hs
    simp at hs
    subst hs
    simp [enumRanSources]
  have hM : EntriesOK (enumRanSources crtsh brute hackertarget otx axfr)
      (enumHostSources domain crtsh brute hackertarget otx axfr) := by
    rw [enumHostSources]
    apply entriesOK_applySource
    · apply entriesOK_applySource
      · apply entriesOK_applySource
        · apply entriesOK_applySource
          · apply entriesOK_applySource
            · exact h0
            · intro hs hcr
              exact ⟨by simp [enumRanSources, hcr], hc hs hcr⟩
          · intro hs hbr
            exact ⟨by simp [enumRanSources, hbr], hb hs hbr⟩
        · intro hs hh
          exact ⟨by simp [enumRanSources, hh], hht hs hh⟩
      · intro hs ho
        exact ⟨by simp [enumRanSources, ho], hox hs ho⟩
    · intro hs hres
      cases axfr with
      | none => exact absurd hres (by simp [axfrHostsRes])
      | some r =>
        cases r with
        | error e => exact absurd hres (by simp [axfrHostsRes])
        | ok zt =>
          have hhs : zt.hostnames = hs := by
            simpa [axfrHostsRes] using hres
          subst hhs
          exact ⟨by simp [enumRanSources], hax zt rfl⟩
  have hperm := perm_sortByHost
    ((enumHostSources domain crtsh brute hackertarget otx axfr).map
      (fun p => Subdomain.mk p.1 (deduplicateSources p.2)))
  refine ⟨_, by rw [Enumerate.eq_def, if_neg hne], ?_, ?_, ?_, ?_⟩
  · intro sub hsub
    obtain ⟨p, hpM, rfl⟩ := List.mem_map.mp (hperm.mem_iff.mp hsub)
    exact (hM p hpM).2.2
  · have hkeys := nodupKeys_enumHostSources domain crtsh brute hackertarget otx axfr
    have hpermmap := hperm.map (fun s => s.host)
    rw [List.map_map] at hpermmap
    have hmapeq :
        ((fun s => s.host) ∘ (fun p : String × List String =>
          Subdomain.mk p.1 (deduplicateSources p.2))) = Prod.fst := rfl
    rw [hmapeq] at hpermmap
    exact hpermmap.nodup_iff.mpr hkeys
  · intro sub hsub
    obtain ⟨p, hpM, rfl⟩ := List.mem_map.mp (hperm.mem_iff.mp hsub)
    obtain ⟨hpne, hallow, _⟩ := hM p hpM
    refine ⟨?_, nodup_deduplicateSources _, ?_⟩
    · obtain ⟨y, hy⟩ := List.exists_mem_of_ne_nil p.2 hpne
      exact List.ne_nil_of_mem ((mem_deduplicateSources _).mpr hy)
    · intro s hs
      exact hallow s ((mem_deduplicateSources _).mp hs)
  · intro h name1 name2 hs1 hs2 hrun1 hrun2 h1 h2
    obtain ⟨ssA, hA, hmA⟩ := lookupSources_enumHostSources_source domain crtsh brute
      hackertarget otx axfr name1 hs1 h hrun1 h1
    obtain ⟨ssB, hB, hmB⟩ := lookupSources_enumHostSources_source domain crtsh brute
      hackertarget otx axfr name2 hs2 h hrun2 h2
    have heq : ssB = ssA := by
      rw [hA] at hB
      exact (Option.some.inj hB).symm
    have hpM : (h, ssA) ∈ enumHostSources domain crtsh brute hackertarget otx axfr :=
      mem_of_lookupSources _ _ _ hA
    refine ⟨Subdomain.mk h (deduplicateSources ssA), ?_, rfl, ?_, ?_⟩
    · exact hperm.mem_iff.mpr (List.mem_map_of_mem _ hpM)
    · exact (mem_deduplicateSources _).mpr hmA
    · exact (mem_deduplicateSources _).mpr (heq ▸ hmB)

theorem enumerate_aggregate_invariants_witness :
    ∃ out, Enumerate "Example.com" (.ok ["www.example.com"]) (.error "eb")
        (.error "eh") (.ok ["www.example.com"]) none = .ok out
      ∧ (∀ sub ∈ out.subdomains, IsLowered sub.host)
      ∧ (out.subdomains.map (fun s => s.host)).Nodup
      ∧ (∀ sub ∈ out.subdomains, sub.sources ≠ [] ∧ sub.sources.Nodup
          ∧ ∀ s ∈ sub.sources, s ∈ enumRanSources (.ok ["www.example.com"])
              (.error "eb") (.error "eh") (.ok ["www.example.com"]) none)
      ∧ (∀ h name1 name2 hs1 hs2,
          (name1, Except.ok hs1) ∈ enumSourceRuns (.ok ["www.example.com"])
            (.error "eb") (.error "eh") (.ok ["www.example.com"]) none →
          (name2, Except.ok hs2) ∈ enumSourceRuns (.ok ["www.example.com"])
            (.error "eb") (.error "eh") (.ok ["www.example.com"]) none →
          h ∈ hs1 → h ∈ hs2 →
          ∃ sub, sub ∈ out.subdomains ∧ sub.host = h ∧ name1 ∈ sub.sources
            ∧ name2 ∈ sub.sources) :=
  enumerate_aggregate_invariants "Example.com" (.ok ["www.example.com"]) (.error "eb")
    (.error "eh") (.ok ["www.example.com"]) none
    (fun hs h => by
      cases h
      intro x hx
      simp at hx
      subst hx
      rfl)
    (fun hs h => by cases h)
    (fun hs h => by cases h)
    (fun hs h => by
      cases h
      intro x hx
      simp at hx
      subst hx
      rfl)
    (fun zt h => by cases h)

/-- C1 counterexample: with the run's context cancelled before any stage
starts — every remote source failing with the context error, the brute-force
sweep finding nothing, and every later stage observing the done context —
`Run` returns a result with a nil error, still containing the root domain,
rather than an error and no `ScanResult`. -/
theorem run_cancelled_returns_partial_result :
    runWithCancelledStages "example.com"
      = .ok (RunResult.mk "example.com" [Subdomain.mk "example.com" ["root"]]
          [] [] [] [] []
          ["hackertarget: context canceled", "otx: context canceled"]
          (Summary.mk 1 0 0 0 0 0 0) false false false) := rfl

/-- C1 (amended): cancelling before any stage starts does not abort the run.
The enumerator still returns the lower-cased root domain (the sources'
failures only become warnings), so `Run` returns without error a partial
result whose subdomains are exactly the root entry, with no DNS records,
ports or services and the scanner and prober never invoked; `Run` returns an
error exactly when enumeration fails or yields no subdomains. -/
theorem run_cancelled_amended (domain e1 e2 e3 : String)
    (co : String → Except LookupErr String)
    (ho : String → Except LookupErr (List String))
    (dialOk : String → Nat → Bool) (ports : List Nat) (titleOf : String → String)
    (respond : PortResult → String → Option HTTPResponse)
    (rules : List FingerprintRule) :
    (Run domain
        (Enumerate domain (.error e1) (.ok []) (.error e2) (.error e3) none)
        (fun hosts => DNSResolve true co ho hosts)
        (fun recs => PortScan true dialOk recs ports)
        (fun ps => ((HTTPProbe true titleOf respond ps).1.1,
                    (HTTPProbe true titleOf respond ps).2))
        (fun svcs => FingerprintServices rules [] svcs)
      = .ok (RunResult.mk domain [Subdomain.mk (strToLower domain) ["root"]]
          [] [] [] [] [] ["hackertarget: " ++ e2, "otx: " ++ e3]
          (Summary.mk 1 0 0 0 0 0 0) false false false))
  ∧ (∀ (enumerate : Except String EnumOutput)
      (resolve : List String → (List DNSResult × List DanglingCNAME) × Option String)
      (scan : List DNSResult → List PortResult × Option String)
      (probe : List PortResult → List HTTPService × Option String)
      (fp : List HTTPService → List HTTPService),
      ((Run domain enumerate resolve scan probe fp).isOk = false ↔
        (∃ e, enumerate = .error e)
        ∨ (∃ eout, enumerate = .ok eout ∧ eout.subdomains = []))) := by
  constructor
  · rfl
  · intro enumerate resolve scan probe fp
    cases enumerate with
    | error e => simp [Run, Except.isOk, Except.toBool]
    | ok eout =>
      by_cases hlen : eout.subdomains.length = 0
      · rw [List.length_eq_zero] at hlen
        simp [Run, hlen, Except.isOk, Except.toBool]
      · have hsub : ¬eout.subdomains = [] := by
          intro hcon
          rw [hcon] at hlen
          exact hlen rfl
        have hok : (Run domain (.ok eout) resolve scan probe fp).isOk = true := by
          simp only [Run]
          rw [if_neg hlen]
          split
          · rfl
          · split
            · rfl
            · rfl
        rw [hok]
        simp [hsub]

/-- C7: if DNS resolution yields zero live hosts (no record with a non-empty
address set), `Run` returns without error the result assembled so far —
subdomains, DNS records, dangling CNAMEs, zone transfers and warnings — with
empty port and service collections, the scanner and prober never invoked,
and the summary computed exactly once from precisely those collections. -/
theorem run_early_return_no_live_hosts (target : String) (eout : EnumOutput)
    (resolve : List String → (List DNSResult × List DanglingCNAME) × Option String)
    (scan : List DNSResult → List PortResult × Option String)
    (probe : List PortResult → List HTTPService × Option String)
    (fingerprint : List HTTPService → List HTTPService)
    (hne : eout.subdomains ≠ [])
    (hdead : ∀ r ∈ (resolve (eout.subdomains.map (fun s => s.host))).1.1,
      r.ips = []) :
    Run target (.ok eout) resolve scan probe fingerprint
      = .ok (RunResult.mk target eout.subdomains
          (resolve (eout.subdomains.map (fun s => s.host))).1.1 [] []
          (resolve (eout.subdomains.map (fun s => s.host))).1.2
          eout.zoneTransfers eout.warnings
          (buildSummary eout.subdomains
            (resolve (eout.subdomains.map (fun s => s.host))).1.1 [] []
            (resolve (eout.subdomains.map (fun s => s.host))).1.2
            eout.zoneTransfers)
          false false false) := by
  have hlen : ¬eout.subdomains.length = 0 := by
    intro h
    exact hne (List.length_eq_zero.mp h)
  have hfilter : ((resolve (eout.subdomains.map (fun s => s.host))).1.1.filter
      (fun r => r.ips.length > 0)) = [] := by
    rw [List.filter_eq_nil_iff]
    intro r hr
    simp [hdead r hr]
  simp only [Run]
  rw [if_neg hlen, hfilter]
  rfl

theorem run_early_return_no_live_hosts_witness :
    Run "example.com"
        (.ok (EnumOutput.mk [Subdomain.mk "dead.example.com" ["brute"]] [] []))
        (fun _ => (([DNSResult.mk "dead.example.com" [] ""], []), none))
        (fun _ => ([PortResult.mk "x" "0.0.0.0" 80], none))
        (fun _ => ([], none)) (fun s => s)
      = .ok (RunResult.mk "example.com" [Subdomain.mk "dead.example.com" ["brute"]]
          [DNSResult.mk "dead.example.com" [] ""] [] [] [] [] []
          (buildSummary [Subdomain.mk "dead.example.com" ["brute"]]
            [DNSResult.mk "dead.example.com" [] ""] [] [] [] [])
          false false false) :=
  run_early_return_no_live_hosts "example.com"
    (EnumOutput.mk [Subdomain.mk "dead.example.com" ["brute"]] [] [])
    (fun _ => (([DNSResult.mk "dead.example.com" [] ""], []), none))
    (fun _ => ([PortResult.mk "x" "0.0.0.0" 80], none))
    (fun _ => ([], none)) (fun s => s)
    (by decide) (by decide)

end Sweep
